import Mathlib

/-!
Verification of the TimeBase provider repository's streaming / polling /
rate-limiting core, shallowly embedded in Lean 4.

The embedded code comes from:
* `src/providers/yahoo-finance/src/main.py` — `YahooFinanceAPI._wait_for_rate_limit`,
  `YahooFinanceProvider._polling_loop`, `_has_price_changed`, `_process_subscriptions`;
* `src/providers/ccxt/src/main.py` — `CcxtProvider._process_subscriptions`,
  `_subscribe_symbol`, `_unsubscribe_symbol`, `_parse_symbol`, `_resolve_symbol`,
  `_stream_symbol`, `stream_realtime_data`;
* `src/src/TimeBase.ProviderSdk/timebase_sdk/models.py` — `TimeSeriesData.validate`.

Real time is modelled by the rationals (seconds since the epoch).  An
`await asyncio.sleep(w)` is modelled as advancing real time by exactly `w`;
`random.uniform(a, b)` calls are modelled as nondeterministic inputs carrying
the hypothesis `a ≤ j ≤ b`.
-/

namespace TimeBase

/-! ## Yahoo Finance rate limiter (`YahooFinanceAPI`) -/

/-- Mutable state of `YahooFinanceAPI` relevant to `_wait_for_rate_limit`:
`_last_request_time`, `_request_count_minute`, `_minute_reset_time`,
`_rate_limit_until`. -/
structure RLState where
  lastRequestTime : ℚ
  requestCountMinute : ℕ
  minuteResetTime : ℚ
  rateLimitUntil : ℚ
deriving Repr, DecidableEq

/-- `MIN_REQUEST_INTERVAL = 5.0` (seconds between requests). -/
def MIN_REQUEST_INTERVAL : ℚ := 5

/-- `MAX_REQUESTS_PER_MINUTE = 8`. -/
def MAX_REQUESTS_PER_MINUTE : ℕ := 8

/-- State set up by `YahooFinanceAPI.__init__` at construction time `t0`:
`_last_request_time = 0`, `_request_count_minute = 0`,
`_minute_reset_time = time.time()`, `_rate_limit_until = 0`. -/
def rlInit (t0 : ℚ) : RLState :=
  { lastRequestTime := 0
    requestCountMinute := 0
    minuteResetTime := t0
    rateLimitUntil := 0 }

/-- The two `random.uniform` draws made during one `_wait_for_rate_limit` call:
`random.uniform(5, 15)` for the minute-budget wait and `random.uniform(1, 3)`
for the minimum-interval wait. -/
structure RLJitter where
  minuteJitter : ℚ
  intervalJitter : ℚ
deriving Repr, DecidableEq

/-- The ranges `random.uniform` draws from in `_wait_for_rate_limit`. -/
def ValidJitter (j : RLJitter) : Prop :=
  5 ≤ j.minuteJitter ∧ j.minuteJitter ≤ 15 ∧
  1 ≤ j.intervalJitter ∧ j.intervalJitter ≤ 3

/-- `YahooFinanceAPI._wait_for_rate_limit`, called at real time `t`.
Returns the new state and the real time at which the function returns
(the moment the upstream request is released).

Faithful details of the source:
* after the cooldown sleep, `current_time` is refreshed (`current_time = time.time()`);
* after the minute-budget sleep it is *not* refreshed, so the subsequent
  minimum-interval computation uses the stale `current_time`;
* `_minute_reset_time` after the budget sleep is set to `time.time()`, i.e. the
  actual wake-up time. -/
def wait_for_rate_limit (s : RLState) (t : ℚ) (j : RLJitter) : RLState × ℚ :=
  -- current_time = time.time()
  let currentTime := t
  -- if current_time < self._rate_limit_until: await asyncio.sleep(...); current_time = time.time()
  let currentTime := if currentTime < s.rateLimitUntil then s.rateLimitUntil else currentTime
  -- if current_time - self._minute_reset_time >= 60: reset counter
  let cnt := if 60 ≤ currentTime - s.minuteResetTime then 0 else s.requestCountMinute
  let mrt := if 60 ≤ currentTime - s.minuteResetTime then currentTime else s.minuteResetTime
  -- if self._request_count_minute >= self.MAX_REQUESTS_PER_MINUTE: sleep out the window
  let minuteWait := 60 - (currentTime - mrt) + j.minuteJitter
  let cnt' := if MAX_REQUESTS_PER_MINUTE ≤ cnt then 0 else cnt
  let mrt' := if MAX_REQUESTS_PER_MINUTE ≤ cnt then currentTime + minuteWait else mrt
  let realTime := if MAX_REQUESTS_PER_MINUTE ≤ cnt then currentTime + minuteWait else currentTime
  -- time_since_last = current_time - self._last_request_time  (stale current_time)
  let timeSinceLast := currentTime - s.lastRequestTime
  let realTime :=
    if timeSinceLast < MIN_REQUEST_INTERVAL then
      realTime + (MIN_REQUEST_INTERVAL - timeSinceLast + j.intervalJitter)
    else realTime
  ({ lastRequestTime := realTime
     requestCountMinute := cnt' + 1
     minuteResetTime := mrt'
     rateLimitUntil := s.rateLimitUntil }, realTime)

/-- A back-to-back sequence of `_wait_for_rate_limit` calls: each call is
issued at the instant the previous one returns.  Returns the list of release
times. -/
def acquireRun (s : RLState) (t : ℚ) : List RLJitter → List ℚ
  | [] => []
  | j :: js =>
    let r := wait_for_rate_limit s t j
    r.2 :: acquireRun r.1 r.2 js

lemma wait_last_eq_release (s : RLState) (t : ℚ) (j : RLJitter) :
    (wait_for_rate_limit s t j).1.lastRequestTime = (wait_for_rate_limit s t j).2 := rfl

lemma wait_release_ge (s : RLState) (t : ℚ) (j : RLJitter)
    (hj : 0 ≤ j.minuteJitter ∧ 0 ≤ j.intervalJitter) (ht : s.lastRequestTime ≤ t) :
    s.lastRequestTime + MIN_REQUEST_INTERVAL ≤ (wait_for_rate_limit s t j).2 := by
  obtain ⟨hm, hi⟩ := hj
  unfold wait_for_rate_limit MIN_REQUEST_INTERVAL
  dsimp only
  split_ifs <;> push_neg at * <;> linarith

lemma wait_count_le (s : RLState) (t : ℚ) (j : RLJitter) :
    (wait_for_rate_limit s t j).1.requestCountMinute ≤ MAX_REQUESTS_PER_MINUTE := by
  unfold wait_for_rate_limit MAX_REQUESTS_PER_MINUTE
  dsimp only
  split_ifs <;> omega

lemma acquireRun_chain (js : List RLJitter) :
    ∀ (s : RLState) (t : ℚ), (∀ j ∈ js, 0 ≤ j.minuteJitter ∧ 0 ≤ j.intervalJitter) →
      s.lastRequestTime ≤ t →
      List.Chain (fun a b => a + MIN_REQUEST_INTERVAL ≤ b)
        s.lastRequestTime (acquireRun s t js) := by
  induction js with
  | nil => intro s t _ _; exact List.Chain.nil
  | cons j js ih =>
    intro s t hj ht
    refine List.Chain.cons (wait_release_ge s t j (hj j (by simp)) ht) ?_
    have h := ih (wait_for_rate_limit s t j).1 (wait_for_rate_limit s t j).2
      (fun x hx => hj x (by simp [hx])) (le_of_eq (wait_last_eq_release s t j))
    rwa [wait_last_eq_release s t j] at h

/-- Claim C1, amended.  For every back-to-back sequence of
`_wait_for_rate_limit` calls (each issued the moment the previous one
returns, with the `random.uniform` draws in their coded ranges), consecutive
upstream requests are released at least `MIN_REQUEST_INTERVAL = 5` seconds
apart, and the per-minute request counter never exceeds
`MAX_REQUESTS_PER_MINUTE = 8` after any call.  (The claim's stronger
rolling-window property is refuted by `c1_rolling_window_counterexample`.) -/
theorem c1_rate_limiter_spacing_and_budget :
    (∀ (s : RLState) (t : ℚ) (js : List RLJitter),
      (∀ j ∈ js, ValidJitter j) → s.lastRequestTime ≤ t →
      List.Chain' (fun a b => a + MIN_REQUEST_INTERVAL ≤ b) (acquireRun s t js)) ∧
    (∀ (s : RLState) (t : ℚ) (j : RLJitter),
      (wait_for_rate_limit s t j).1.requestCountMinute ≤ MAX_REQUESTS_PER_MINUTE) := by
  constructor
  · intro s t js hj ht
    have h := acquireRun_chain js s t
      (fun x hx => ⟨by linarith [(hj x hx).1], by linarith [(hj x hx).2.2.1]⟩) ht
    cases hrun : acquireRun s t js with
    | nil => exact trivial
    | cons r rest =>
      rw [hrun] at h
      exact (List.chain_cons.mp h).2
  · exact wait_count_le

/-- Witness for `c1_rate_limiter_spacing_and_budget` at a concrete
back-to-back run of three acquisitions. -/
theorem c1_rate_limiter_spacing_and_budget_witness :
    List.Chain' (fun a b => a + MIN_REQUEST_INTERVAL ≤ b)
      (acquireRun (rlInit 0) 0 [⟨5, 1⟩, ⟨5, 1⟩, ⟨5, 1⟩]) :=
  c1_rate_limiter_spacing_and_budget.1 (rlInit 0) 0 [⟨5, 1⟩, ⟨5, 1⟩, ⟨5, 1⟩]
    (by intro j hj; fin_cases hj <;> exact ⟨by norm_num, by norm_num, by norm_num, by norm_num⟩)
    (by norm_num [rlInit])

/-- Counterexample to claim C1 as stated: starting from the constructor state
(`__init__` at time 0) a back-to-back run of ten `_wait_for_rate_limit` calls
beginning 57 seconds later — all jitter draws inside their coded ranges —
releases all ten requests inside the single rolling 60-second window
`[57, 117)`, exceeding the per-minute budget of 8.  (The minute window resets
on age rather than rolling: the reset at t = 63 forgets the two releases
already made inside the window.) -/
theorem c1_rolling_window_counterexample :
    (∀ j ∈ List.replicate 10 (⟨5, 1⟩ : RLJitter), ValidJitter j) ∧
    (rlInit 0).lastRequestTime ≤ 57 ∧
    (acquireRun (rlInit 0) 57 (List.replicate 10 ⟨5, 1⟩)).length = 10 ∧
    MAX_REQUESTS_PER_MINUTE < 10 ∧
    (∀ r ∈ acquireRun (rlInit 0) 57 (List.replicate 10 ⟨5, 1⟩), 57 ≤ r ∧ r < 57 + 60) := by
  have hrun : acquireRun (rlInit 0) 57 (List.replicate 10 ⟨5, 1⟩) =
      [57, 63, 69, 75, 81, 87, 93, 99, 105, 111] := by
    norm_num [acquireRun, wait_for_rate_limit, rlInit, List.replicate,
      MIN_REQUEST_INTERVAL, MAX_REQUESTS_PER_MINUTE]
  refine ⟨?_, by norm_num [rlInit], ?_, by norm_num [MAX_REQUESTS_PER_MINUTE], ?_⟩
  · intro j hj
    simp only [List.mem_replicate] at hj
    rw [hj.2]
    exact ⟨by norm_num, by norm_num, by norm_num, by norm_num⟩
  · rw [hrun]; rfl
  · rw [hrun]
    intro r hr
    fin_cases hr <;> norm_num

/-! ## Yahoo Finance polling loop: circuit breaker and change filter
(`YahooFinanceProvider._polling_loop`, `_has_price_changed`) -/

/-- The value fields of a real-time data point as compared by
`_has_price_changed` and stored in `_last_prices`: the dict built by
`_fetch_latest_price` restricted to the keys the filter reads.  Prices are
rationals, volume an integer (`int(v) if v else 0`), the timestamp an
integer epoch second (`datetime.fromtimestamp(ts, tz=timezone.utc)`). -/
structure PricePoint where
  openPrice : ℚ
  high : ℚ
  low : ℚ
  close : ℚ
  volume : ℤ
  timestamp : ℤ
deriving Repr, DecidableEq

/-- `YahooFinanceProvider._has_price_changed(old, new)`. -/
def has_price_changed (oldp newp : PricePoint) : Bool :=
  oldp.openPrice != newp.openPrice ||
  oldp.high != newp.high ||
  oldp.low != newp.low ||
  oldp.close != newp.close ||
  oldp.volume != newp.volume ||
  oldp.timestamp != newp.timestamp

/-- Outcome of `await self._fetch_latest_price(symbol, interval)` inside one
polling-loop iteration: a data point, a falsy result (`None`, i.e. fetch
failure or "no data"), or an exception raised during the fetch. -/
inductive FetchResult
  | ok (dp : PricePoint)
  | noData
  | raised
deriving Repr, DecidableEq

/-- Per-symbol mutable state read and written by the polling loop for one
subscription key: `_consecutive_failures[symbol]` and `_last_prices[key]`. -/
structure SymbolState where
  consecutive_failures : ℕ
  last_price : Option PricePoint
deriving Repr, DecidableEq

/-- What one polling-loop iteration did for the key. -/
inductive CycleResult
  | skipped
  | emitted (dp : PricePoint)
  | suppressed
  | failed
deriving Repr, DecidableEq

/-- `self._max_consecutive_failures = 5` (set in `YahooFinanceProvider.__init__`). -/
def max_consecutive_failures : ℕ := 5

/-- One scheduling check of `YahooFinanceProvider._polling_loop` for a single
subscription key (lines 462–488 of `main.py`), given the fetch outcome the
iteration would observe:

* if `_consecutive_failures[symbol] >= _max_consecutive_failures`, the fetch
  is skipped and the counter reset to 0;
* on a truthy data point, the point is emitted and the counter reset only
  when `_last_prices` has no entry or `_has_price_changed` holds — the
  emission branch also records the point in `_last_prices`; an unchanged
  point leaves the whole state untouched;
* on a falsy result or an exception the counter is incremented. -/
def polling_cycle (s : SymbolState) (r : FetchResult) : SymbolState × CycleResult :=
  if max_consecutive_failures ≤ s.consecutive_failures then
    ({ s with consecutive_failures := 0 }, .skipped)
  else
    match r with
    | .ok dp =>
      match s.last_price with
      | none => ({ consecutive_failures := 0, last_price := some dp }, .emitted dp)
      | some last =>
        if has_price_changed last dp then
          ({ consecutive_failures := 0, last_price := some dp }, .emitted dp)
        else (s, .suppressed)
    | .noData => ({ s with consecutive_failures := s.consecutive_failures + 1 }, .failed)
    | .raised => ({ s with consecutive_failures := s.consecutive_failures + 1 }, .failed)

/-- Folding a sequence of fetch outcomes through the polling loop's state. -/
def polling_run (s : SymbolState) (rs : List FetchResult) : SymbolState :=
  rs.foldl (fun st r => (polling_cycle st r).1) s

/-- A fetch outcome that the loop records as a failure. -/
def IsFailure (r : FetchResult) : Prop := r = .noData ∨ r = .raised

lemma has_price_changed_false_iff (a b : PricePoint) :
    has_price_changed a b = false ↔ a = b := by
  cases a; cases b
  simp [has_price_changed, PricePoint.mk.injEq]
  tauto

lemma polling_run_failures (rs : List FetchResult) :
    ∀ (s : SymbolState), (∀ r ∈ rs, IsFailure r) →
      s.consecutive_failures + rs.length ≤ max_consecutive_failures →
      polling_run s rs = { s with consecutive_failures := s.consecutive_failures + rs.length } := by
  induction rs with
  | nil => intro s _ _; simp [polling_run]
  | cons r rs ih =>
    intro s hf hlen
    have hr : IsFailure r := hf r (by simp)
    have hlt : ¬ max_consecutive_failures ≤ s.consecutive_failures := by
      simp only [List.length_cons] at hlen; omega
    have hstep : (polling_cycle s r).1 =
        { s with consecutive_failures := s.consecutive_failures + 1 } := by
      rcases hr with h | h <;> subst h <;> simp [polling_cycle, hlt]
    simp only [polling_run, List.foldl_cons] at *
    rw [hstep, ih { s with consecutive_failures := s.consecutive_failures + 1 }
      (fun x hx => hf x (by simp [hx])) (by simp at hlen ⊢; omega)]
    simp only [List.length_cons]
    congr 1
    omega

lemma polling_cycle_not_skipped (s : SymbolState) (r : FetchResult)
    (h : ¬ max_consecutive_failures ≤ s.consecutive_failures) :
    (polling_cycle s r).2 ≠ .skipped := by
  rcases s with ⟨c, lp⟩
  cases r <;> rcases lp with _ | last <;>
    simp only [polling_cycle, if_neg h] <;>
    first
    | (split_ifs <;> simp)
    | simp

/-- Claim C2.  After exactly `_max_consecutive_failures = 5` consecutive
recorded failures (falsy fetch result or exception) with no intervening
success, the polling loop skips the symbol's fetch on the next scheduling
check, resets the counter to 0 at that skip, and does not skip on the
following check no matter which outcomes occur in between. -/
theorem c2_circuit_breaker_skips_exactly_once :
    ∀ (s : SymbolState) (rs : List FetchResult),
      s.consecutive_failures = 0 →
      rs.length = max_consecutive_failures →
      (∀ r ∈ rs, IsFailure r) →
      (polling_run s rs).consecutive_failures = max_consecutive_failures ∧
      (∀ r, (polling_cycle (polling_run s rs) r).2 = .skipped ∧
        (polling_cycle (polling_run s rs) r).1.consecutive_failures = 0) ∧
      (∀ r r', (polling_cycle (polling_cycle (polling_run s rs) r).1 r').2 ≠ .skipped) := by
  intro s rs h0 hlen hf
  have hrun := polling_run_failures rs s hf (by omega)
  rw [hrun]
  simp only [h0, Nat.zero_add, hlen]
  have htrip : max_consecutive_failures ≤ max_consecutive_failures := le_refl _
  refine ⟨by simp, fun r => ?_, fun r r' => ?_⟩
  · constructor <;> simp [polling_cycle, htrip]
  · have hskip : (polling_cycle
        { s with consecutive_failures := max_consecutive_failures } r).1 =
        { s with consecutive_failures := 0 } := by
      simp [polling_cycle, htrip]
    rw [hskip]
    exact polling_cycle_not_skipped _ r' (by simp [max_consecutive_failures])

/-- Witness for `c2_circuit_breaker_skips_exactly_once`: five straight
falsy fetches from a fresh symbol state. -/
theorem c2_circuit_breaker_skips_exactly_once_witness :
    (polling_run ⟨0, none⟩ (List.replicate 5 .noData)).consecutive_failures =
      max_consecutive_failures ∧
    (∀ r, (polling_cycle (polling_run ⟨0, none⟩ (List.replicate 5 .noData)) r).2 = .skipped ∧
      (polling_cycle (polling_run ⟨0, none⟩ (List.replicate 5 .noData)) r).1.consecutive_failures = 0) ∧
    (∀ r r', (polling_cycle
      (polling_cycle (polling_run ⟨0, none⟩ (List.replicate 5 .noData)) r).1 r').2 ≠ .skipped) :=
  c2_circuit_breaker_skips_exactly_once ⟨0, none⟩ (List.replicate 5 .noData) rfl rfl
    (fun r hr => by rw [List.eq_of_mem_replicate hr]; exact Or.inl rfl)

/-- A concrete OHLCV point (used by several concrete runs below). -/
def samplePoint : PricePoint :=
  { openPrice := 100, high := 110, low := 90, close := 105
    volume := 1000, timestamp := 1700000000 }

/-- Counterexample to claim C3 as stated: with 4 consecutive failures on
record and a last emitted point equal to the freshly fetched one, the fetch
succeeds with a data point, yet the change filter suppresses it and the
consecutive-failure counter stays at 4 instead of being reset to 0 — the
reset `self._consecutive_failures[symbol] = 0` sits inside the
has-price-changed branch of `_polling_loop`. -/
theorem c3_suppressed_success_keeps_counter :
    (polling_cycle ⟨4, some samplePoint⟩ (.ok samplePoint)).2 = .suppressed ∧
    (polling_cycle ⟨4, some samplePoint⟩ (.ok samplePoint)).1.consecutive_failures = 4 ∧
    (polling_cycle ⟨4, some samplePoint⟩ (.ok samplePoint)).1.consecutive_failures ≠ 0 := by
  have h : has_price_changed samplePoint samplePoint = false := by
    simp [has_price_changed]
  refine ⟨?_, ?_, ?_⟩ <;> simp [polling_cycle, max_consecutive_failures, h]

/-- Claim C3, amended.  A successful fetch resets the symbol's
consecutive-failure counter to 0 exactly when the returned point is emitted
(no recorded last point, or the point differs from it); when the change
filter suppresses the point as unchanged, the per-symbol state — including
the counter — is left untouched. -/
theorem c3_success_resets_counter_only_on_emit :
    ∀ (s : SymbolState) (dp : PricePoint),
      ¬ max_consecutive_failures ≤ s.consecutive_failures →
      ((polling_cycle s (.ok dp)).2 = .emitted dp →
        (polling_cycle s (.ok dp)).1.consecutive_failures = 0) ∧
      ((polling_cycle s (.ok dp)).2 = .suppressed →
        (polling_cycle s (.ok dp)).1 = s) := by
  intro s dp h
  rcases s with ⟨c, lp⟩
  rcases lp with _ | last
  · simp [polling_cycle, if_neg h]
  · simp only [polling_cycle, if_neg h]
    split_ifs <;> simp

/-- Witness for `c3_success_resets_counter_only_on_emit` on a fresh state. -/
theorem c3_success_resets_counter_only_on_emit_witness :
    ((polling_cycle ⟨0, none⟩ (.ok samplePoint)).2 = .emitted samplePoint →
      (polling_cycle ⟨0, none⟩ (.ok samplePoint)).1.consecutive_failures = 0) ∧
    ((polling_cycle ⟨0, none⟩ (.ok samplePoint)).2 = .suppressed →
      (polling_cycle ⟨0, none⟩ (.ok samplePoint)).1 = ⟨0, none⟩) :=
  c3_success_resets_counter_only_on_emit ⟨0, none⟩ samplePoint
    (by simp [max_consecutive_failures])

lemma eq_iff_fields (a b : PricePoint) :
    a = b ↔
      (a.openPrice = b.openPrice ∧ a.high = b.high ∧ a.low = b.low ∧
       a.close = b.close ∧ a.volume = b.volume ∧ a.timestamp = b.timestamp) := by
  cases a; cases b
  simp [PricePoint.mk.injEq]

/-- Claim C5.  With a last-emitted point on record (and the circuit breaker
not tripped), the change filter suppresses a candidate iff its open, high,
low, close, volume and timestamp are all exactly equal to the last point's;
any difference makes the candidate be emitted and recorded as the new
last-emitted value for the key. -/
theorem c5_change_filter_exact_equality :
    ∀ (s : SymbolState) (last dp : PricePoint),
      s.last_price = some last →
      ¬ max_consecutive_failures ≤ s.consecutive_failures →
      ((polling_cycle s (.ok dp)).2 = .suppressed ↔
        (last.openPrice = dp.openPrice ∧ last.high = dp.high ∧ last.low = dp.low ∧
         last.close = dp.close ∧ last.volume = dp.volume ∧ last.timestamp = dp.timestamp)) ∧
      (last ≠ dp →
        (polling_cycle s (.ok dp)).2 = .emitted dp ∧
        (polling_cycle s (.ok dp)).1.last_price = some dp) := by
  intro s last dp hlast h
  rcases s with ⟨c, lp⟩
  cases hlast
  simp only [polling_cycle, if_neg h]
  by_cases heq : last = dp
  · subst heq
    have hf : has_price_changed last last = false :=
      (has_price_changed_false_iff _ _).mpr rfl
    rw [if_neg (by simp [hf])]
    exact ⟨by simp, fun hne => absurd rfl hne⟩
  · have ht : has_price_changed last dp = true := by
      rcases hb : has_price_changed last dp with _ | _
      · exact absurd ((has_price_changed_false_iff _ _).mp hb) heq
      · rfl
    rw [if_pos ht]
    refine ⟨?_, fun _ => ⟨rfl, rfl⟩⟩
    constructor
    · intro hcontr; simp at hcontr
    · intro hfields; exact absurd ((eq_iff_fields last dp).mpr hfields) heq

/-- Witness for `c5_change_filter_exact_equality`: a candidate differing from
the last-emitted point only in volume is emitted and recorded. -/
theorem c5_change_filter_exact_equality_witness :
    ((polling_cycle ⟨0, some samplePoint⟩
        (.ok { samplePoint with volume := 1001 })).2 = .suppressed ↔
      (samplePoint.openPrice = samplePoint.openPrice ∧
       samplePoint.high = samplePoint.high ∧
       samplePoint.low = samplePoint.low ∧
       samplePoint.close = samplePoint.close ∧
       samplePoint.volume = (1001 : ℤ) ∧
       samplePoint.timestamp = samplePoint.timestamp)) ∧
    (samplePoint ≠ { samplePoint with volume := 1001 } →
      (polling_cycle ⟨0, some samplePoint⟩
        (.ok { samplePoint with volume := 1001 })).2 =
          .emitted { samplePoint with volume := 1001 } ∧
      (polling_cycle ⟨0, some samplePoint⟩
        (.ok { samplePoint with volume := 1001 })).1.last_price =
          some { samplePoint with volume := 1001 }) :=
  c5_change_filter_exact_equality ⟨0, some samplePoint⟩ samplePoint
    { samplePoint with volume := 1001 } rfl (by simp [max_consecutive_failures])

/-! ## Control messages and string helpers -/

/-- A subscription control message: the `action` / `symbol` / `interval`
entries of the dict, after `msg.get(..., default)` — a missing `symbol` is
the empty string. -/
structure ControlMsg where
  action : String
  symbol : String
  interval : String
deriving Repr, DecidableEq

/-- Python's `str.upper()` (on the ASCII range used by the providers). -/
def pyUpper (s : String) : String :=
  (s.toList.map Char.toUpper).asString

/-- Python's `str.lower()` (on the ASCII range used by the providers). -/
def pyLower (s : String) : String :=
  (s.toList.map Char.toLower).asString

/-- Split a character list at the first `:`; `none` when there is no colon.
This is Python's `symbol.split(":", 1)` combined with the `":" in symbol`
containment test. -/
def splitOnce : List Char → Option (List Char × List Char)
  | [] => none
  | c :: rest =>
    if c = ':' then some ([], rest)
    else
      match splitOnce rest with
      | none => none
      | some (a, b) => some (c :: a, b)

/-- `CcxtProvider._parse_symbol`: `none` models the `ValueError` raised when
the symbol has no colon, or the exchange or symbol part is empty; otherwise
`(exchange_id.lower(), raw_symbol)`. -/
def parse_symbol (s : String) : Option (String × String) :=
  match splitOnce s.toList with
  | none => none
  | some (a, b) =>
    if a = [] ∨ b = [] then none
    else some (pyLower a.asString, b.asString)

/-! ## CCXT provider subscription registry (`CcxtProvider`) -/

/-- The mutable session state of `CcxtProvider` touched by
`_process_subscriptions`: `_active_subscriptions` (a `set` of
`"symbol|interval"` keys), the keys of `_stream_tasks`, and
`_streaming_paused`.  Python sets/dict-key-sets are modelled as
duplicate-free lists (insertion is membership-guarded). -/
structure CcxtState where
  active_subscriptions : List String
  stream_tasks : List String
  streaming_paused : Bool
deriving Repr, DecidableEq

/-- State at the top of `CcxtProvider.stream_realtime_data`. -/
def ccxtInit : CcxtState :=
  { active_subscriptions := [], stream_tasks := [], streaming_paused := false }

/-- `CcxtProvider._subscribe_symbol`.  Returns the state after the call
together with `true` when the call raised (`ValueError` from `_parse_symbol`
or from `_get_exchange` for an exchange id outside `known`); the subscription
key is added *before* the parse, so a raising call leaves the key behind. -/
def subscribe_symbol (known : List String) (st : CcxtState)
    (symbol interval : String) : CcxtState × Bool :=
  let subscriptionKey := symbol ++ "|" ++ interval
  if subscriptionKey ∈ st.active_subscriptions then (st, false)
  else
    let st1 := { st with
      active_subscriptions := subscriptionKey :: st.active_subscriptions }
    match parse_symbol symbol with
    | none => (st1, true)
    | some (exchangeId, rawSymbol) =>
      if exchangeId ∈ known then
        let streamKey := exchangeId ++ ":" ++ rawSymbol ++ ":" ++ interval
        if streamKey ∈ st1.stream_tasks then (st1, false)
        else ({ st1 with stream_tasks := streamKey :: st1.stream_tasks }, false)
      else (st1, true)

/-- `CcxtProvider._unsubscribe_symbol`.  The key is discarded before the
parse; a parse failure raises after the discard. -/
def unsubscribe_symbol (st : CcxtState) (symbol interval : String) :
    CcxtState × Bool :=
  let subscriptionKey := symbol ++ "|" ++ interval
  let st1 := { st with
    active_subscriptions := st.active_subscriptions.erase subscriptionKey }
  match parse_symbol symbol with
  | none => (st1, true)
  | some (exchangeId, rawSymbol) =>
    let streamKey := exchangeId ++ ":" ++ rawSymbol ++ ":" ++ interval
    ({ st1 with stream_tasks := st1.stream_tasks.erase streamKey }, false)

/-- One message of `CcxtProvider._process_subscriptions`'s loop body.
Empty-symbol messages are skipped before any state is touched. -/
def ccxt_process_msg (known : List String) (st : CcxtState) (m : ControlMsg) :
    CcxtState × Bool :=
  let action := pyUpper m.action
  if m.symbol = "" then (st, false)
  else if action = "SUBSCRIBE" then subscribe_symbol known st m.symbol m.interval
  else if action = "UNSUBSCRIBE" then unsubscribe_symbol st m.symbol m.interval
  else if action = "PAUSE" then ({ st with streaming_paused := true }, false)
  else if action = "RESUME" then ({ st with streaming_paused := false }, false)
  else (st, false)

/-- `CcxtProvider._process_subscriptions` over a finite control-message
input.  Only `asyncio.CancelledError` is caught, so the first raising message
terminates the loop; the result is the final state together with the suffix
of messages that were never consumed. -/
def ccxt_process_subscriptions (known : List String) (st : CcxtState) :
    List ControlMsg → CcxtState × List ControlMsg
  | [] => (st, [])
  | m :: ms =>
    match ccxt_process_msg known st m with
    | (st', false) => ccxt_process_subscriptions known st' ms
    | (st', true) => (st', ms)

/-! ## Yahoo Finance provider subscription registry
(`YahooFinanceProvider._process_subscriptions`) -/

/-- `YahooFinanceProvider`'s `_active_subscriptions : Dict[str, Set[str]]`
(symbol → set of intervals) together with `_streaming_paused`.  The dict is
an association list over distinct symbols; each interval set a
duplicate-free list. -/
structure YahooState where
  active_subscriptions : List (String × List String)
  streaming_paused : Bool
deriving Repr, DecidableEq

/-- State set up by `YahooFinanceProvider.__init__`. -/
def yahooInit : YahooState :=
  { active_subscriptions := [], streaming_paused := false }

/-- `if symbol not in dict: dict[symbol] = set()` followed by
`dict[symbol].add(interval)`. -/
def yahoo_add_interval :
    List (String × List String) → String → String → List (String × List String)
  | [], symbol, interval => [(symbol, [interval])]
  | (s, ivs) :: rest, symbol, interval =>
    if s = symbol then
      (s, if interval ∈ ivs then ivs else interval :: ivs) :: rest
    else (s, ivs) :: yahoo_add_interval rest symbol interval

/-- `dict[symbol].discard(interval)` followed by
`if not dict[symbol]: del dict[symbol]`; a no-op when the symbol is absent. -/
def yahoo_remove_interval :
    List (String × List String) → String → String → List (String × List String)
  | [], _, _ => []
  | (s, ivs) :: rest, symbol, interval =>
    if s = symbol then
      let ivs' := ivs.erase interval
      if ivs' = [] then rest else (s, ivs') :: rest
    else (s, ivs) :: yahoo_remove_interval rest symbol interval

/-- One message of `YahooFinanceProvider._process_subscriptions`'s loop body.
Note: unlike the CCXT provider there is *no* empty-symbol guard; the
message's symbol and action are upper-cased and processed as they are.  The
branch bodies cannot raise. -/
def yahoo_process_msg (st : YahooState) (m : ControlMsg) : YahooState :=
  let action := pyUpper m.action
  let symbol := pyUpper m.symbol
  let interval := m.interval
  if action = "SUBSCRIBE" then
    { st with active_subscriptions :=
        yahoo_add_interval st.active_subscriptions symbol interval }
  else if action = "UNSUBSCRIBE" then
    { st with active_subscriptions :=
        yahoo_remove_interval st.active_subscriptions symbol interval }
  else if action = "PAUSE" then { st with streaming_paused := true }
  else if action = "RESUME" then { st with streaming_paused := false }
  else st

lemma subscribe_symbol_nodup (known : List String) (st : CcxtState)
    (symbol interval : String)
    (h1 : st.active_subscriptions.Nodup) (h2 : st.stream_tasks.Nodup) :
    (subscribe_symbol known st symbol interval).1.active_subscriptions.Nodup ∧
    (subscribe_symbol known st symbol interval).1.stream_tasks.Nodup := by
  unfold subscribe_symbol
  by_cases hk : symbol ++ "|" ++ interval ∈ st.active_subscriptions
  · simp [hk, h1, h2]
  · simp only [if_neg hk]
    rcases hp : parse_symbol symbol with _ | ⟨ex, raw⟩
    · simp [hp, List.nodup_cons, hk, h1, h2]
    · simp only [hp]
      by_cases he : ex ∈ known
      · simp only [if_pos he]
        by_cases hs : ex ++ ":" ++ raw ++ ":" ++ interval ∈ st.stream_tasks
        · simp [hs, List.nodup_cons, hk, h1, h2]
        · simp [hs, List.nodup_cons, hk, h1, h2]
      · simp [he, List.nodup_cons, hk, h1, h2]

lemma unsubscribe_symbol_nodup (st : CcxtState) (symbol interval : String)
    (h1 : st.active_subscriptions.Nodup) (h2 : st.stream_tasks.Nodup) :
    (unsubscribe_symbol st symbol interval).1.active_subscriptions.Nodup ∧
    (unsubscribe_symbol st symbol interval).1.stream_tasks.Nodup := by
  unfold unsubscribe_symbol
  rcases hp : parse_symbol symbol with _ | ⟨ex, raw⟩
  · simp [hp, h1.erase _, h2]
  · simp [hp, h1.erase _, h2.erase _]

lemma ccxt_process_msg_nodup (known : List String) (st : CcxtState)
    (m : ControlMsg)
    (h1 : st.active_subscriptions.Nodup) (h2 : st.stream_tasks.Nodup) :
    (ccxt_process_msg known st m).1.active_subscriptions.Nodup ∧
    (ccxt_process_msg known st m).1.stream_tasks.Nodup := by
  simp only [ccxt_process_msg]
  split_ifs <;>
    first
    | exact ⟨h1, h2⟩
    | exact subscribe_symbol_nodup known st m.symbol m.interval h1 h2
    | exact unsubscribe_symbol_nodup st m.symbol m.interval h1 h2

/-- Claim C6.  For every sequence of control messages processed by the CCXT
provider, the subscription registry and the stream-worker task map never
hold duplicate entries, and a SUBSCRIBE whose key is already active returns
without raising and without changing the state (registry, task set and pause
flag all unchanged). -/
theorem c6_no_duplicate_subscriptions :
    (∀ (known : List String) (st : CcxtState) (msgs : List ControlMsg),
      st.active_subscriptions.Nodup → st.stream_tasks.Nodup →
      (ccxt_process_subscriptions known st msgs).1.active_subscriptions.Nodup ∧
      (ccxt_process_subscriptions known st msgs).1.stream_tasks.Nodup) ∧
    (∀ (known : List String) (st : CcxtState) (symbol interval : String),
      symbol ++ "|" ++ interval ∈ st.active_subscriptions →
      subscribe_symbol known st symbol interval = (st, false)) := by
  constructor
  · intro known st msgs
    induction msgs generalizing st with
    | nil => intro h1 h2; exact ⟨h1, h2⟩
    | cons m ms ih =>
      intro h1 h2
      obtain ⟨h1', h2'⟩ := ccxt_process_msg_nodup known st m h1 h2
      unfold ccxt_process_subscriptions
      rcases hstep : ccxt_process_msg known st m with ⟨st', b⟩
      rw [hstep] at h1' h2'
      cases b
      · exact ih st' h1' h2'
      · exact ⟨h1', h2'⟩
  · intro known st symbol interval h
    unfold subscribe_symbol
    simp [h]

/-- Witness for `c6_no_duplicate_subscriptions`: a concrete session that
subscribes the same key twice and a duplicate-subscribe call on a state
already holding the key. -/
theorem c6_no_duplicate_subscriptions_witness :
    ((ccxt_process_subscriptions ["binance"] ccxtInit
        [⟨"SUBSCRIBE", "BINANCE:BTCUSDT", "1m"⟩,
         ⟨"SUBSCRIBE", "BINANCE:BTCUSDT", "1m"⟩]).1.active_subscriptions.Nodup ∧
      (ccxt_process_subscriptions ["binance"] ccxtInit
        [⟨"SUBSCRIBE", "BINANCE:BTCUSDT", "1m"⟩,
         ⟨"SUBSCRIBE", "BINANCE:BTCUSDT", "1m"⟩]).1.stream_tasks.Nodup) ∧
    subscribe_symbol ["binance"]
      ⟨["BINANCE:BTCUSDT|1m"], ["binance:BTCUSDT:1m"], false⟩
      "BINANCE:BTCUSDT" "1m" =
      (⟨["BINANCE:BTCUSDT|1m"], ["binance:BTCUSDT:1m"], false⟩, false) :=
  ⟨c6_no_duplicate_subscriptions.1 ["binance"] ccxtInit
      [⟨"SUBSCRIBE", "BINANCE:BTCUSDT", "1m"⟩,
       ⟨"SUBSCRIBE", "BINANCE:BTCUSDT", "1m"⟩] List.nodup_nil List.nodup_nil,
   c6_no_duplicate_subscriptions.2 ["binance"]
      ⟨["BINANCE:BTCUSDT|1m"], ["binance:BTCUSDT:1m"], false⟩
      "BINANCE:BTCUSDT" "1m" (by simp)⟩

/-- Counterexample to claim C7 as stated: the Yahoo Finance provider has no
empty-symbol guard — a SUBSCRIBE control message with a missing (empty)
symbol mutates the registry, adding an active subscription under the empty
symbol. -/
theorem c7_yahoo_empty_symbol_counterexample :
    yahoo_process_msg yahooInit ⟨"SUBSCRIBE", "", "1m"⟩ =
      { active_subscriptions := [("", ["1m"])], streaming_paused := false } ∧
    yahoo_process_msg yahooInit ⟨"SUBSCRIBE", "", "1m"⟩ ≠ yahooInit := by
  constructor
  · rfl
  · intro h
    have : ([("", ["1m"])] : List (String × List String)) = [] :=
      congrArg YahooState.active_subscriptions h
    simp at this

/-- Claim C7, amended.  The CCXT provider drops a control message whose
symbol is missing (empty) without mutating any state and without raising;
the Yahoo Finance provider never raises on such a message either, but
processes it normally — an empty-symbol SUBSCRIBE records the interval
under the empty symbol in the registry. -/
theorem c7_empty_symbol_handling :
    (∀ (known : List String) (st : CcxtState) (m : ControlMsg),
      m.symbol = "" → ccxt_process_msg known st m = (st, false)) ∧
    (∀ (st : YahooState) (m : ControlMsg),
      m.symbol = "" → pyUpper m.action = "SUBSCRIBE" →
      yahoo_process_msg st m =
        { st with active_subscriptions :=
            yahoo_add_interval st.active_subscriptions "" m.interval }) := by
  constructor
  · intro known st m h
    unfold ccxt_process_msg
    simp [h]
  · intro st m h hact
    unfold yahoo_process_msg
    rw [h, hact]
    simp [show pyUpper "" = "" from rfl]

/-- Witness for `c7_empty_symbol_handling` at a concrete empty-symbol
message. -/
theorem c7_empty_symbol_handling_witness :
    ccxt_process_msg ["binance"] ccxtInit ⟨"SUBSCRIBE", "", "1m"⟩ =
      (ccxtInit, false) ∧
    yahoo_process_msg yahooInit ⟨"SUBSCRIBE", "", "1m"⟩ =
      { yahooInit with active_subscriptions :=
          yahoo_add_interval yahooInit.active_subscriptions "" "1m" } :=
  ⟨c7_empty_symbol_handling.1 ["binance"] ccxtInit ⟨"SUBSCRIBE", "", "1m"⟩ rfl,
   c7_empty_symbol_handling.2 yahooInit ⟨"SUBSCRIBE", "", "1m"⟩ rfl rfl⟩

/-- Counterexample to claim C8 as stated: `_process_subscriptions` catches
only `asyncio.CancelledError`, so a SUBSCRIBE whose (non-empty) symbol fails
`EXCHANGE:SYMBOL` parsing raises `ValueError` out of the loop and terminates
the control-ingest task early — the well-formed message that follows is
never processed, and the malformed key is even left in the registry with no
worker. -/
theorem c8_early_termination_counterexample :
    ccxt_process_subscriptions ["binance"] ccxtInit
      [⟨"SUBSCRIBE", "FOO", "1m"⟩, ⟨"SUBSCRIBE", "BINANCE:BTCUSDT", "1m"⟩] =
      ({ active_subscriptions := ["FOO|1m"], stream_tasks := [],
         streaming_paused := false },
       [⟨"SUBSCRIBE", "BINANCE:BTCUSDT", "1m"⟩]) := rfl

/-- A control message that cannot make `_process_subscriptions` raise:
its symbol is empty, or its action is none of SUBSCRIBE/UNSUBSCRIBE, or its
symbol parses and names a known exchange. -/
def Survivable (known : List String) (m : ControlMsg) : Prop :=
  m.symbol = "" ∨
  (pyUpper m.action ≠ "SUBSCRIBE" ∧ pyUpper m.action ≠ "UNSUBSCRIBE") ∨
  (∃ ex raw, parse_symbol m.symbol = some (ex, raw) ∧ ex ∈ known)

lemma ccxt_process_msg_survivable (known : List String) (st : CcxtState)
    (m : ControlMsg) (h : Survivable known m) :
    (ccxt_process_msg known st m).2 = false := by
  simp only [ccxt_process_msg]
  rcases h with h | ⟨h1, h2⟩ | ⟨ex, raw, hp, he⟩
  · simp [h]
  · by_cases hsym : m.symbol = ""
    · simp [hsym]
    · simp only [if_neg hsym]
      split_ifs with hsub huns <;>
        first
        | rfl
        | exact absurd hsub h1
        | exact absurd huns h2
  · by_cases hsym : m.symbol = ""
    · simp [hsym]
    · simp only [if_neg hsym]
      split_ifs with ha hu
      · unfold subscribe_symbol
        by_cases hk : m.symbol ++ "|" ++ m.interval ∈ st.active_subscriptions
        · simp [hk]
        · simp only [if_neg hk, hp, if_pos he]
          split_ifs <;> rfl
      · unfold unsubscribe_symbol
        simp [hp]
      · rfl
      · rfl
      · rfl

/-- Claim C8, amended.  The CCXT control-ingest loop survives empty-symbol
messages and unknown actions, but a SUBSCRIBE or UNSUBSCRIBE whose symbol
fails `EXCHANGE:SYMBOL` parsing (or a SUBSCRIBE naming an unknown exchange)
raises out of the loop and ends the task early, dropping all later
messages; when every message of the input is survivable, the task consumes
the entire input and terminates only at end-of-input. -/
theorem c8_control_ingest_survives_wellformed_input :
    ∀ (known : List String) (st : CcxtState) (msgs : List ControlMsg),
      (∀ m ∈ msgs, Survivable known m) →
      (ccxt_process_subscriptions known st msgs).2 = [] := by
  intro known st msgs
  induction msgs generalizing st with
  | nil => intro _; rfl
  | cons m ms ih =>
    intro hall
    have hm := ccxt_process_msg_survivable known st m (hall m (by simp))
    unfold ccxt_process_subscriptions
    rcases hstep : ccxt_process_msg known st m with ⟨st', b⟩
    rw [hstep] at hm
    cases b
    · exact ih st' (fun x hx => hall x (by simp [hx]))
    · exact absurd hm (by simp)

/-- Witness for `c8_control_ingest_survives_wellformed_input` on a concrete
well-formed control sequence. -/
theorem c8_control_ingest_survives_wellformed_input_witness :
    (ccxt_process_subscriptions ["binance"] ccxtInit
      [⟨"SUBSCRIBE", "BINANCE:BTCUSDT", "1m"⟩,
       ⟨"PAUSE", "BINANCE:BTCUSDT", "1m"⟩,
       ⟨"UNSUBSCRIBE", "BINANCE:BTCUSDT", "1m"⟩]).2 = [] :=
  c8_control_ingest_survives_wellformed_input ["binance"] ccxtInit
    [⟨"SUBSCRIBE", "BINANCE:BTCUSDT", "1m"⟩,
     ⟨"PAUSE", "BINANCE:BTCUSDT", "1m"⟩,
     ⟨"UNSUBSCRIBE", "BINANCE:BTCUSDT", "1m"⟩]
    (by
      intro m hm
      fin_cases hm
      · exact Or.inr (Or.inr ⟨"binance", "BTCUSDT", rfl, by simp⟩)
      · exact Or.inr (Or.inl ⟨by decide, by decide⟩)
      · exact Or.inr (Or.inr ⟨"binance", "BTCUSDT", rfl, by simp⟩))

/-! ## CCXT stream queue (`stream_realtime_data` / `_stream_symbol`) -/

/-- An `asyncio.Queue`: `maxsize <= 0` means the queue size is infinite and
`put_nowait` never raises `QueueFull`. -/
structure AsyncQueue (α : Type) where
  maxsize : ℕ
  items : List α
deriving Repr, DecidableEq

/-- The queue created at the top of `CcxtProvider.stream_realtime_data`:
`self._stream_queue = asyncio.Queue()` — no `maxsize` argument, so the
default `maxsize = 0` (unbounded). -/
def stream_queue_init (α : Type) : AsyncQueue α :=
  { maxsize := 0, items := [] }

/-- `Queue.put_nowait` as used in `_stream_symbol`: the worker never blocks;
if the queue is full (`QueueFull`), the point is dropped (and the drop
logged).  Returns the queue after the call and `true` when the point was
dropped. -/
def put_nowait {α : Type} (q : AsyncQueue α) (x : α) : AsyncQueue α × Bool :=
  if 0 < q.maxsize ∧ q.maxsize ≤ q.items.length then (q, true)
  else ({ q with items := q.items ++ [x] }, false)

/-- Publish a list of points through `put_nowait`, counting drops. -/
def publish_all {α : Type} (q : AsyncQueue α) : List α → AsyncQueue α × ℕ
  | [] => (q, 0)
  | x :: xs =>
    let r := put_nowait q x
    let rest := publish_all r.1 xs
    (rest.1, (if r.2 then 1 else 0) + rest.2)

/-- Claim C4: the stream queue is created unbounded (`asyncio.Queue()` with
default `maxsize = 0`), so `put_nowait` never raises `QueueFull`: publishing
any sequence of points drops nothing, enqueues every point — and the queue
is genuinely unbounded (no bound covers all publish sequences).  Publishing
is non-blocking, but the claimed bounded-queue/drop-on-full behaviour is
dead code. -/
theorem c4_stream_queue_unbounded_never_drops :
    (∀ (xs : List ℕ),
      (publish_all (stream_queue_init ℕ) xs).2 = 0 ∧
      (publish_all (stream_queue_init ℕ) xs).1.items = xs) ∧
    ¬ ∃ B : ℕ, ∀ (xs : List ℕ),
      (publish_all (stream_queue_init ℕ) xs).1.items.length ≤ B := by
  have hgen : ∀ (xs : List ℕ) (acc : List ℕ),
      (publish_all ⟨0, acc⟩ xs).2 = 0 ∧
      (publish_all ⟨0, acc⟩ xs).1.items = acc ++ xs := by
    intro xs
    induction xs with
    | nil => intro acc; simp [publish_all]
    | cons x xs ih =>
      intro acc
      have hput : put_nowait (⟨0, acc⟩ : AsyncQueue ℕ) x = (⟨0, acc ++ [x]⟩, false) := by
        simp [put_nowait]
      simp only [publish_all, hput]
      obtain ⟨h1, h2⟩ := ih (acc ++ [x])
      simp [h1, h2]
  constructor
  · intro xs
    have h := hgen xs []
    simpa using h
  · rintro ⟨B, hB⟩
    have h := hB (List.replicate (B + 1) 0)
    have hlen := (hgen (List.replicate (B + 1) 0) []).2
    rw [show stream_queue_init ℕ = ⟨0, []⟩ from rfl, hlen] at h
    simp at h

/-! ## Data-point model and `TimeSeriesData.validate`
(`timebase_sdk/models.py`) -/

/-- `TimeSeriesData` restricted to the fields `validate` inspects; the
timestamp is split into its epoch value and whether `tzinfo` is set. -/
structure TimeSeriesData where
  symbol : String
  ts_epoch : ℚ
  ts_tz_aware : Bool
  openPrice : ℚ
  high : ℚ
  low : ℚ
  close : ℚ
  volume : ℚ
  interval : String
deriving Repr, DecidableEq

/-- The `valid_intervals` whitelist of `TimeSeriesData.validate`. -/
def valid_intervals : List String :=
  ["1m", "5m", "15m", "30m", "1h", "4h", "1d", "1wk", "1mo"]

/-- `TimeSeriesData.validate`, with each `raise ValueError(...)` modelled as
an `Except.error` carrying the message. -/
def validate (d : TimeSeriesData) : Except String Unit :=
  if d.symbol = "" then .error "Symbol is required"
  else if d.ts_tz_aware = false then .error "Timestamp must be timezone-aware"
  else if d.openPrice < 0 ∨ d.high < 0 ∨ d.low < 0 ∨ d.close < 0 then
    .error "OHLC values must be non-negative"
  else if d.high < d.low then .error "High must be >= low"
  else if d.openPrice < d.low ∨ d.openPrice > d.high then
    .error "Open must be between low and high"
  else if d.close < d.low ∨ d.close > d.high then
    .error "Close must be between low and high"
  else if d.volume < 0 then .error "Volume must be non-negative"
  else if d.interval ∉ valid_intervals then .error "Invalid interval"
  else .ok ()

/-- A ccxt ticker as read by the `watchTicker` branch of
`CcxtProvider._stream_symbol`: each `.get` may be absent. -/
structure Ticker where
  timestamp : Option ℤ
  openPrice : Option ℚ
  high : Option ℚ
  low : Option ℚ
  last : Option ℚ
  baseVolume : Option ℚ
deriving Repr, DecidableEq

/-- Python's `x or y` on an optional float: `None` and `0` are falsy. -/
def py_or (x : Option ℚ) (y : ℚ) : ℚ :=
  match x with
  | some v => if v = 0 then y else v
  | none => y

/-- Python's `x or y` on an optional millisecond timestamp. -/
def py_or_ms (x : Option ℤ) (y : ℤ) : ℤ :=
  match x with
  | some v => if v = 0 then y else v
  | none => y

/-- The data point built by the `watchTicker` branch of
`CcxtProvider._stream_symbol` and pushed onto the stream queue:

```
timestamp_ms = ticker.get("timestamp") or int(now_utc * 1000)
open_price   = ticker.get("open") or ticker.get("last") or 0
high         = ticker.get("high") or open_price
low          = ticker.get("low") or open_price
close        = ticker.get("last") or open_price
volume       = ticker.get("baseVolume") or 0
interval     = "tick"
```

The timestamp is `datetime.fromtimestamp(timestamp_ms / 1000, tz=utc)` —
always timezone-aware. -/
def build_ticker_message (nowMs : ℤ) (exchangeId rawSymbol : String)
    (t : Ticker) : TimeSeriesData :=
  let timestampMs := py_or_ms t.timestamp nowMs
  let openPrice := py_or t.openPrice (py_or t.last 0)
  { symbol := pyUpper exchangeId ++ ":" ++ rawSymbol
    ts_epoch := (timestampMs : ℚ) / 1000
    ts_tz_aware := true
    openPrice := openPrice
    high := py_or t.high openPrice
    low := py_or t.low openPrice
    close := py_or t.last openPrice
    volume := py_or t.baseVolume 0
    interval := "tick" }

/-- A ticker with a garbage `high` below its `open` and a missing `low`, as
an upstream exchange may deliver. -/
def badTicker : Ticker :=
  { timestamp := some 1700000000000
    openPrice := some 10
    high := some 5
    low := none
    last := some 3
    baseVolume := none }

/-- Counterexample to claim C9 as stated: neither provider calls
`TimeSeriesData.validate` (or any equivalent check) on its streaming path,
and `_stream_symbol`'s ticker fallbacks (`low = ticker.get("low") or
open_price`, …) can produce a point with `open > high` and `close < low`;
the point is accepted by the stream queue (not dropped) and so delivered to
the output stream. -/
theorem c9_delivered_point_violates_invariant :
    ¬ ((build_ticker_message 0 "binance" "BTCUSDT" badTicker).openPrice ≤
        (build_ticker_message 0 "binance" "BTCUSDT" badTicker).high) ∧
    ¬ ((build_ticker_message 0 "binance" "BTCUSDT" badTicker).low ≤
        (build_ticker_message 0 "binance" "BTCUSDT" badTicker).close) ∧
    (put_nowait (stream_queue_init TimeSeriesData)
      (build_ticker_message 0 "binance" "BTCUSDT" badTicker)).2 = false ∧
    (put_nowait (stream_queue_init TimeSeriesData)
      (build_ticker_message 0 "binance" "BTCUSDT" badTicker)).1.items =
      [build_ticker_message 0 "binance" "BTCUSDT" badTicker] := by
  refine ⟨?_, ?_, ?_, ?_⟩
  · norm_num [build_ticker_message, badTicker, py_or]
  · norm_num [build_ticker_message, badTicker, py_or]
  · norm_num [put_nowait, stream_queue_init]
  · norm_num [put_nowait, stream_queue_init]

/-- Claim C9, amended.  `TimeSeriesData.validate` accepts a data point only
if it satisfies the claimed invariant (`low ≤ open ≤ high`,
`low ≤ close ≤ high`, `volume ≥ 0`, timezone-aware timestamp); but the
providers deliver stream points without invoking `validate`, so the
invariant holds for validated points, not for every delivered point. -/
theorem c9_validate_enforces_invariant :
    ∀ (d : TimeSeriesData), validate d = .ok () →
      d.low ≤ d.openPrice ∧ d.openPrice ≤ d.high ∧
      d.low ≤ d.close ∧ d.close ≤ d.high ∧
      0 ≤ d.volume ∧ d.ts_tz_aware = true := by
  intro d h
  unfold validate at h
  split_ifs at h with h1 h2 h3 h4 h5 h6 h7 h8
  push_neg at h4 h5 h6 h7
  exact ⟨h5.1, h5.2, h6.1, h6.2, h7, Bool.not_eq_false _ |>.mp h2⟩

/-- Witness for `c9_validate_enforces_invariant` on a concrete valid point. -/
theorem c9_validate_enforces_invariant_witness :
    (⟨"BINANCE:BTCUSDT", 1700000000, true, 10, 11, 9, 10, 100, "1m"⟩ :
        TimeSeriesData).low ≤
      (⟨"BINANCE:BTCUSDT", 1700000000, true, 10, 11, 9, 10, 100, "1m"⟩ :
        TimeSeriesData).openPrice ∧
    (⟨"BINANCE:BTCUSDT", 1700000000, true, 10, 11, 9, 10, 100, "1m"⟩ :
        TimeSeriesData).openPrice ≤
      (⟨"BINANCE:BTCUSDT", 1700000000, true, 10, 11, 9, 10, 100, "1m"⟩ :
        TimeSeriesData).high ∧
    (⟨"BINANCE:BTCUSDT", 1700000000, true, 10, 11, 9, 10, 100, "1m"⟩ :
        TimeSeriesData).low ≤
      (⟨"BINANCE:BTCUSDT", 1700000000, true, 10, 11, 9, 10, 100, "1m"⟩ :
        TimeSeriesData).close ∧
    (⟨"BINANCE:BTCUSDT", 1700000000, true, 10, 11, 9, 10, 100, "1m"⟩ :
        TimeSeriesData).close ≤
      (⟨"BINANCE:BTCUSDT", 1700000000, true, 10, 11, 9, 10, 100, "1m"⟩ :
        TimeSeriesData).high ∧
    0 ≤ (⟨"BINANCE:BTCUSDT", 1700000000, true, 10, 11, 9, 10, 100, "1m"⟩ :
        TimeSeriesData).volume ∧
    (⟨"BINANCE:BTCUSDT", 1700000000, true, 10, 11, 9, 10, 100, "1m"⟩ :
        TimeSeriesData).ts_tz_aware = true :=
  c9_validate_enforces_invariant
    ⟨"BINANCE:BTCUSDT", 1700000000, true, 10, 11, 9, 10, 100, "1m"⟩
    (by
      unfold validate
      rw [if_neg (by decide), if_neg (by decide), if_neg (by norm_num),
        if_neg (by norm_num), if_neg (by norm_num), if_neg (by norm_num),
        if_neg (by norm_num), if_neg (by decide)])

/-! ## CCXT stream worker (`CcxtProvider._stream_symbol` /
`_resolve_symbol`) -/

/-- The fields of a ccxt market record that `_resolve_symbol` reads. -/
structure Market where
  symbol : String
  id : String
deriving Repr, DecidableEq

/-- The ccxt exchange data `_resolve_symbol` consults: `markets_by_id`
(market id → market) and `markets` (unified symbol → market), as
association lists. -/
structure Exchange where
  markets_by_id : List (String × Market)
  markets : List (String × Market)
deriving Repr, DecidableEq

/-- Python `dict.get`. -/
def dict_get : List (String × Market) → String → Option Market
  | [], _ => none
  | (k, v) :: rest, key => if k = key then some v else dict_get rest key

/-- `CcxtProvider._resolve_symbol`: `none` models the
`ValueError("Unknown symbol for exchange: ...")`.  (The source's
`isinstance(market, list)` disambiguation collapses in this model where each
id maps to one market.) -/
def resolve_symbol (ex : Exchange) (rawSymbol : String) : Option String :=
  match (if ex.markets_by_id = [] then none else dict_get ex.markets_by_id rawSymbol) with
  | some m => some m.symbol
  | none =>
    match dict_get ex.markets rawSymbol with
    | some m => some m.symbol
    | none =>
      match ex.markets.find? (fun p => p.2.id = rawSymbol) with
      | some p => some p.2.symbol
      | none => none

/-- The environment one iteration of the `while True` loop in
`_stream_symbol` observes: whether `subscription_key` is still in
`_active_subscriptions`, whether `_streaming_paused` is set, and whether an
`asyncio.CancelledError` is delivered at one of the iteration's awaits. -/
structure WorkerEnv where
  in_registry : Bool
  paused : Bool
  cancelled : Bool
deriving Repr, DecidableEq

/-- How a `_stream_symbol` task can end. -/
inductive WorkerExit
  | noQueue
  | resolveFailed
  | registryRemoved
  | cancelled
deriving Repr, DecidableEq

/-- One iteration of the `while True` loop body.  The registry check runs
first and returns when the key is gone; cancellation surfaces at the next
await and is answered by `except asyncio.CancelledError: return`; every
other situation — pause sleep, successful watch + `put_nowait` (which never
blocks, `QueueFull` being caught), or any other exception, which the
`except Exception` arm logs and sleeps on — continues the loop. -/
def worker_iteration (env : WorkerEnv) : Option WorkerExit :=
  if env.in_registry = false then some .registryRemoved
  else if env.cancelled then some .cancelled
  else none

/-- `CcxtProvider._stream_symbol` run against a finite schedule of
iteration environments: `none` when the worker is still looping after the
schedule, otherwise the way it terminated.  Before the loop, the worker
returns at once when `self._stream_queue` is unset, and
`_resolve_symbol`'s `ValueError` kills the task (nothing catches it). -/
def stream_symbol (queuePresent : Bool) (ex : Exchange) (rawSymbol : String)
    (envs : List WorkerEnv) : Option WorkerExit :=
  if queuePresent = false then some .noQueue
  else
    match resolve_symbol ex rawSymbol with
    | none => some .resolveFailed
    | some _ => loop envs
where
  /-- Iterate the loop body over the schedule. -/
  loop : List WorkerEnv → Option WorkerExit
    | [] => none
    | env :: rest =>
      match worker_iteration env with
      | some e => some e
      | none => loop rest

lemma stream_symbol_loop_exit (envs : List WorkerEnv) (x : WorkerExit)
    (h : stream_symbol.loop envs = some x) :
    (x = .registryRemoved ∧ ∃ env ∈ envs, env.in_registry = false) ∨
    x = .cancelled := by
  induction envs with
  | nil => simp [stream_symbol.loop] at h
  | cons env rest ih =>
    rw [stream_symbol.loop] at h
    rcases henv : worker_iteration env with _ | e
    · rw [henv] at h
      rcases ih h with ⟨hx, env', hmem, hreg⟩ | hx
      · exact Or.inl ⟨hx, env', by simp [hmem], hreg⟩
      · exact Or.inr hx
    · rw [henv] at h
      replace h : e = x := by simpa using h
      unfold worker_iteration at henv
      split_ifs at henv with h1 h2
      · replace henv : WorkerExit.registryRemoved = e := by simpa using henv
        exact Or.inl ⟨by rw [← h, ← henv], env, by simp, h1⟩
      · replace henv : WorkerExit.cancelled = e := by simpa using henv
        exact Or.inr (by rw [← h, ← henv])

/-- Claim C10, amended.  Once a stream worker has passed its start-up checks
(queue present, symbol resolved), the only way it stops by itself is
observing that its subscription key left the registry — cancellation aside;
in particular, while the key stays registered and no cancellation arrives
(e.g. under a set pause flag) the worker keeps looping.  Before the loop,
however, the worker also dies when the stream queue is unset or when
`_resolve_symbol` raises for a symbol unknown to the exchange
(`c10_resolve_failure_counterexample`). -/
theorem c10_worker_self_termination :
    (∀ (ex : Exchange) (rawSymbol : String) (envs : List WorkerEnv) (x : WorkerExit),
      stream_symbol true ex rawSymbol envs = some x →
      x = .noQueue ∨ x = .resolveFailed ∨ x = .cancelled ∨
      (x = .registryRemoved ∧ ∃ env ∈ envs, env.in_registry = false)) ∧
    (∀ (ex : Exchange) (rawSymbol s : String) (envs : List WorkerEnv),
      resolve_symbol ex rawSymbol = some s →
      (∀ env ∈ envs, env.in_registry = true ∧ env.cancelled = false) →
      stream_symbol true ex rawSymbol envs = none) := by
  constructor
  · intro ex rawSymbol envs x h
    unfold stream_symbol at h
    rw [if_neg (by simp)] at h
    rcases hres : resolve_symbol ex rawSymbol with _ | s
    · rw [hres] at h
      refine Or.inr (Or.inl ?_)
      simpa using h.symm
    · rw [hres] at h
      rcases stream_symbol_loop_exit envs x h with ⟨hx, env, hmem, hreg⟩ | hx
      · exact Or.inr (Or.inr (Or.inr ⟨hx, env, hmem, hreg⟩))
      · exact Or.inr (Or.inr (Or.inl hx))
  · intro ex rawSymbol s envs hres hall
    unfold stream_symbol
    rw [if_neg (by simp), hres]
    induction envs with
    | nil => rfl
    | cons env rest ih =>
      have henv := hall env (by simp)
      rw [stream_symbol.loop]
      rw [show worker_iteration env = none by
        unfold worker_iteration
        rw [if_neg (by simp [henv.1]), if_neg (by simp [henv.2])]]
      exact ih (fun e he => hall e (by simp [he]))

/-- Witness for `c10_worker_self_termination`: a worker whose key stays
registered keeps looping through paused and unpaused iterations, and a
worker that observes its key removed reports exactly that. -/
theorem c10_worker_self_termination_witness :
    stream_symbol true
      ⟨[("BTCUSDT", ⟨"BTC/USDT", "BTCUSDT"⟩)], []⟩ "BTCUSDT"
      [⟨true, true, false⟩, ⟨true, false, false⟩] = none ∧
    (WorkerExit.registryRemoved = .noQueue ∨
     WorkerExit.registryRemoved = .resolveFailed ∨
     WorkerExit.registryRemoved = .cancelled ∨
     (WorkerExit.registryRemoved = .registryRemoved ∧
      ∃ env ∈ [(⟨false, false, false⟩ : WorkerEnv)], env.in_registry = false)) :=
  ⟨c10_worker_self_termination.2
      ⟨[("BTCUSDT", ⟨"BTC/USDT", "BTCUSDT"⟩)], []⟩ "BTCUSDT" "BTC/USDT"
      [⟨true, true, false⟩, ⟨true, false, false⟩] rfl
      (by intro env henv; fin_cases henv <;> exact ⟨rfl, rfl⟩),
   c10_worker_self_termination.1
      ⟨[("BTCUSDT", ⟨"BTC/USDT", "BTCUSDT"⟩)], []⟩ "BTCUSDT"
      [⟨false, false, false⟩] .registryRemoved rfl⟩

/-- Counterexample to claim C10 as stated: a worker started for a symbol the
exchange cannot resolve dies from the un-caught `ValueError` of
`_resolve_symbol` before its first loop iteration — a self-termination that
is neither a registry removal (the key is still registered: the schedule
has `in_registry = true`) nor an explicit cancellation. -/
theorem c10_resolve_failure_counterexample :
    stream_symbol true ⟨[], []⟩ "NOSUCH"
      [⟨true, false, false⟩] = some .resolveFailed := rfl

end TimeBase
